import Mathlib

/-!
# Verification of the Essence CRUD service

Shallow embedding of the `fastapiREST` repository: a FastAPI + SQLAlchemy CRUD
service over a single `essence` table (src/models.py), with Pydantic request
schemas (src/schemas.py) and route handlers (src/routers.py).

Modelling decisions, each traceable to the source:

* The database (SQLite table `essence`) is a list of rows in rowid order;
  SQLAlchemy inserts append, and a plain `SELECT` without `ORDER BY` scans the
  table in rowid order.  SQLite assigns a fresh rowid `max(rowid) + 1` on
  insert into an `INTEGER PRIMARY KEY` table.
* Pydantic validation of a JSON body is modelled on a small JSON value type:
  `extra='forbid'` rejects unknown keys, `Field(..., max_length=255)` bounds
  the string length, `Field(..., ge=0)` bounds the integer.  (Pydantic's lax
  string-to-number coercions are not modelled; no claim depends on them.)
* `create_essence` declares `essence_in: Annotated[EssenceCreate, Depends()]`
  (src/routers.py line 141): FastAPI binds a Pydantic-model dependency's
  fields from the query string, not from the request body.  Query parameters
  arrive as strings and are parsed per declared field type; undeclared query
  parameters are ignored by FastAPI.
* The `setattr` loops of `put_essence` and `patch_essence` are embedded as a
  fold of field assignments over an ORM draft whose fields are `Option`-valued
  (a Python attribute may be set to `None`); the commit step then enforces the
  column `NOT NULL` constraints of src/models.py (all three data columns are
  non-nullable), failing with an integrity error (HTTP 500) on a `None` value.
  No other storage-level constraint exists (no CHECK on `quantity`).
* FastAPI validates the request body/parameters before the handler runs, so a
  validation failure (422) precedes the handler's own 404 check.
-/

namespace EssencesApi

/-- A JSON value as it appears in a request payload. -/
inductive JValue where
  | jnull
  | jbool (b : Bool)
  | jint (n : Int)
  | jstr (s : String)
deriving Repr, DecidableEq

/-- A JSON object: association list of field name to value. -/
abbrev JObj := List (String × JValue)

/-- src/schemas.py `EssenceBase`: `name: str (max_length=255)`,
`quantity: int (ge=0)`, `is_done: bool = False`. -/
structure EssenceBase where
  name : String
  quantity : Int
  is_done : Bool
deriving Repr, DecidableEq

/-- src/schemas.py `EssenceCreate(EssenceBase)` — same fields, no change. -/
abbrev EssenceCreate := EssenceBase

/-- src/schemas.py `EssenceReplace(EssenceBase)` — same fields, no change
(in particular `is_done` keeps its default `False`, so it is optional). -/
abbrev EssenceReplace := EssenceBase

/-- src/schemas.py `EssenceUpdate`: every field optional.  The outer `Option`
records whether the field was present in the payload at all (Pydantic's
"unset" tracking); the inner `Option` is the value, which may be JSON null. -/
structure EssenceUpdate where
  name : Option (Option String)
  quantity : Option (Option Int)
  is_done : Option (Option Bool)
deriving Repr, DecidableEq

/-- src/models.py `Essence`: columns id (integer primary key),
name (String(255), NOT NULL), quantity (Integer, NOT NULL),
is_done (Boolean, NOT NULL). -/
structure Essence where
  id : Int
  name : String
  quantity : Int
  is_done : Bool
deriving Repr, DecidableEq

/-- The persistent state: the `essence` table, rows in rowid order. -/
structure DB where
  rows : List Essence
deriving Repr, DecidableEq

/-- The keys the `EssenceBase`/`EssenceUpdate` schemas declare; every other
key is rejected by `model_config = ConfigDict(extra='forbid')`. -/
def allowedKey (k : String) : Bool :=
  k == "name" || k == "quantity" || k == "is_done"

/-- Pydantic validation of `EssenceBase` (hence of `EssenceCreate` and
`EssenceReplace`): unknown keys forbidden; `name` required, a string of
length at most 255; `quantity` required, an integer `>= 0`; `is_done`
optional, a boolean, defaulting to `False`. -/
def validateEssenceBase (o : JObj) : Except Unit EssenceBase :=
  if o.all (fun kv => allowedKey kv.1) then
    match o.lookup "name", o.lookup "quantity" with
    | some (JValue.jstr n), some (JValue.jint q) =>
      if n.length ≤ 255 ∧ 0 ≤ q then
        match o.lookup "is_done" with
        | none => Except.ok ⟨n, q, false⟩
        | some (JValue.jbool b) => Except.ok ⟨n, q, b⟩
        | some _ => Except.error ()
      else Except.error ()
    | _, _ => Except.error ()
  else Except.error ()

/-- Validation of the `EssenceCreate` schema. -/
def validateEssenceCreate (o : JObj) : Except Unit EssenceCreate :=
  validateEssenceBase o

/-- Validation of the `EssenceReplace` schema. -/
def validateEssenceReplace (o : JObj) : Except Unit EssenceReplace :=
  validateEssenceBase o

/-- `name: Optional[str] = Field(None, max_length=255)`: absent is unset,
null is allowed, a string must have length at most 255. -/
def validateOptName (v : Option JValue) : Except Unit (Option (Option String)) :=
  match v with
  | none => Except.ok none
  | some JValue.jnull => Except.ok (some none)
  | some (JValue.jstr s) =>
      if s.length ≤ 255 then Except.ok (some (some s)) else Except.error ()
  | some _ => Except.error ()

/-- `quantity: Optional[int] = Field(None, ge=0)`: absent is unset, null is
allowed (the `ge` constraint is skipped for `None`), an integer must be
`>= 0`. -/
def validateOptQuantity (v : Option JValue) : Except Unit (Option (Option Int)) :=
  match v with
  | none => Except.ok none
  | some JValue.jnull => Except.ok (some none)
  | some (JValue.jint q) =>
      if 0 ≤ q then Except.ok (some (some q)) else Except.error ()
  | some _ => Except.error ()

/-- `is_done: Optional[bool] = None`: absent is unset, null allowed, else a
boolean. -/
def validateOptIsDone (v : Option JValue) : Except Unit (Option (Option Bool)) :=
  match v with
  | none => Except.ok none
  | some JValue.jnull => Except.ok (some none)
  | some (JValue.jbool b) => Except.ok (some (some b))
  | some _ => Except.error ()

/-- Pydantic validation of the `EssenceUpdate` schema: unknown keys
forbidden, every field optional. -/
def validateEssenceUpdate (o : JObj) : Except Unit EssenceUpdate :=
  if o.all (fun kv => allowedKey kv.1) then
    match validateOptName (o.lookup "name"),
          validateOptQuantity (o.lookup "quantity"),
          validateOptIsDone (o.lookup "is_done") with
    | Except.ok n, Except.ok q, Except.ok b => Except.ok ⟨n, q, b⟩
    | _, _, _ => Except.error ()
  else Except.error ()

/-- Where a handler receives its payload: the HTTP request body or the query
string. -/
inductive ParamLocation where
  | body
  | query
deriving Repr, DecidableEq

/-- src/routers.py line 141: `essence_in: Annotated[EssenceCreate, Depends()]`.
A Pydantic model declared as a FastAPI dependency has its fields bound from
query parameters, so the create payload arrives in the query string. -/
def create_essence_payload_location : ParamLocation := ParamLocation.query

/-- ASCII lowercasing, character by character (`Char.toLower` folds only
`A`–`Z`, exactly SQLite's default ASCII-only case folding). -/
def lowerStr (s : String) : String :=
  ⟨s.data.map Char.toLower⟩

/-- Parsing of a decimal integer query parameter (optional leading minus,
then decimal digits), accumulating the value. -/
def digitsToNat? (cs : List Char) (acc : Nat) : Option Nat :=
  match cs with
  | [] => some acc
  | c :: rest =>
    if c.isDigit then digitsToNat? rest (acc * 10 + (c.toNat - 48))
    else none

/-- FastAPI's parsing of an `int` query parameter. -/
def parseIntParam (s : String) : Option Int :=
  match s.data with
  | [] => none
  | '-' :: rest =>
    (match rest with
     | [] => none
     | _ => (digitsToNat? rest 0).map (fun n => -(n : Int)))
  | cs => (digitsToNat? cs 0).map (fun n => (n : Int))

/-- FastAPI's parsing of a boolean query parameter (accepted spellings,
case-insensitive: 1/0, true/false, yes/no, on/off). -/
def parseBoolParam (s : String) : Option Bool :=
  let t := lowerStr s
  if t == "1" || t == "true" || t == "yes" || t == "on" then some true
  else if t == "0" || t == "false" || t == "no" || t == "off" then some false
  else none

/-- FastAPI's binding of the `EssenceCreate` dependency from the query
string: only the declared fields (`name`, `quantity`, `is_done`) are
collected — an undeclared query parameter is ignored, never rejected.
`name` is taken as the raw string; `quantity` and `is_done` are parsed per
their declared types, an unparseable value being kept as the raw string so
that schema validation rejects it (FastAPI reports it as a 422 type error). -/
def bindCreateQuery (params : List (String × String)) : JObj :=
  (match params.lookup "name" with
   | none => []
   | some v => [("name", JValue.jstr v)]) ++
  (match params.lookup "quantity" with
   | none => []
   | some v =>
     [("quantity", match parseIntParam v with
       | some n => JValue.jint n
       | none => JValue.jstr v)]) ++
  (match params.lookup "is_done" with
   | none => []
   | some v =>
     [("is_done", match parseBoolParam v with
       | some b => JValue.jbool b
       | none => JValue.jstr v)])

/-- The error outcomes a request can end in (src/routers.py and FastAPI):
`validation` is the 422 a failed schema/query validation produces, `notFound`
the 404 raised by the handlers, `server` the 500 an unhandled persistence
error (e.g. a NOT NULL integrity error on commit) surfaces as. -/
inductive HttpError where
  | validation
  | notFound
  | server
deriving Repr, DecidableEq

/-- The HTTP status code of each error outcome. -/
def HttpError.statusCode : HttpError → Nat
  | HttpError.validation => 422
  | HttpError.notFound => 404
  | HttpError.server => 500

/-- `status_code=status.HTTP_201_CREATED` on the POST routes. -/
def create_success_status : Nat := 201

/-- `status_code=status.HTTP_204_NO_CONTENT` on the DELETE route. -/
def delete_success_status : Nat := 204

/-- Does `f` hold of some suffix of the character list? (The backtracking a
`%` wildcard performs.) -/
def likeSuffixes (f : List Char → Bool) : List Char → Bool
  | [] => f []
  | c :: cs => f (c :: cs) || likeSuffixes f cs

/-- SQL `LIKE` pattern matching over character lists: `%` matches any
sequence, `_` any single character, anything else itself. -/
def likeMatch : List Char → List Char → Bool
  | [], cs => cs.isEmpty
  | '%' :: ps, cs => likeSuffixes (likeMatch ps) cs
  | '_' :: ps, cs =>
    (match cs with
     | [] => false
     | _ :: cs2 => likeMatch ps cs2)
  | p :: ps, cs =>
    (match cs with
     | [] => false
     | c :: cs2 => p == c && likeMatch ps cs2)

/-- `Essence.name.ilike(f'%{name}%')` (src/routers.py line 89):
case-insensitive `LIKE` against the pattern `%name%`. -/
def ilikeContains (name : String) (value : String) : Bool :=
  likeMatch (lowerStr ("%" ++ name ++ "%")).data (lowerStr value).data

/-- SQLite assigns `max(rowid) + 1` as the rowid of a newly inserted row of
an `INTEGER PRIMARY KEY` table (1 on an empty table). -/
def freshId (db : DB) : Int :=
  (db.rows.map Essence.id).foldr max 0 + 1

/-- Insert one validated create payload: a new row with a fresh id is
appended to the table (`db.add` + `commit`). -/
def insertEssence (db : DB) (c : EssenceCreate) : DB × Essence :=
  let e : Essence := ⟨freshId db, c.name, c.quantity, c.is_done⟩
  (⟨db.rows ++ [e]⟩, e)

/-- Insert a list of validated create payloads in order
(`db.add_all` + one `commit`); returns the created rows in input order. -/
def insertEssences (db : DB) (cs : List EssenceCreate) : DB × List Essence :=
  match cs with
  | [] => (db, [])
  | c :: rest =>
    let (db1, e) := insertEssence db c
    let (db2, es) := insertEssences db1 rest
    (db2, e :: es)

/-- `db.get(Essence, essence_id)`: primary-key lookup. -/
def dbGet (db : DB) (essence_id : Int) : Option Essence :=
  db.rows.find? (fun e => e.id == essence_id)

/-- The in-memory ORM object a `setattr` loop mutates: every data column
attribute may hold a value or Python `None`. -/
structure EssenceDraft where
  name : Option String
  quantity : Option Int
  is_done : Option Bool
deriving Repr, DecidableEq

/-- The ORM object of a stored row before any `setattr`. -/
def toDraft (e : Essence) : EssenceDraft :=
  ⟨some e.name, some e.quantity, some e.is_done⟩

/-- One `(key, value)` pair of a Pydantic `model_dump()`. -/
inductive FieldVal where
  | fname (v : Option String)
  | fquantity (v : Option Int)
  | fisDone (v : Option Bool)
deriving Repr, DecidableEq

/-- `setattr(essence, key, value)` for one dumped field. -/
def setField (d : EssenceDraft) : FieldVal → EssenceDraft
  | FieldVal.fname v => { d with name := v }
  | FieldVal.fquantity v => { d with quantity := v }
  | FieldVal.fisDone v => { d with is_done := v }

/-- `essence_in.model_dump()` of a `EssenceReplace`: all three fields, with
their (non-null) values. -/
def replaceDump (r : EssenceReplace) : List FieldVal :=
  [FieldVal.fname (some r.name), FieldVal.fquantity (some r.quantity),
   FieldVal.fisDone (some r.is_done)]

/-- `essence_in.model_dump(exclude_unset=True)` of a `EssenceUpdate`: only
the fields explicitly present in the payload, keeping an explicit null. -/
def updateDump (u : EssenceUpdate) : List FieldVal :=
  (match u.name with
   | none => []
   | some v => [FieldVal.fname v]) ++
  (match u.quantity with
   | none => []
   | some v => [FieldVal.fquantity v]) ++
  (match u.is_done with
   | none => []
   | some v => [FieldVal.fisDone v])

/-- The storage-level row constraints of src/models.py: all three data
columns are `NOT NULL`; there is no other constraint (in particular no CHECK
on the sign of `quantity`). -/
def storageRowAccepted (d : EssenceDraft) : Bool :=
  d.name.isSome && d.quantity.isSome && d.is_done.isSome

/-- `commit` of a mutated ORM object: if the draft satisfies the column
constraints the row with the given id is updated in place (its rowid, hence
its scan position, is unchanged); otherwise the commit raises an integrity
error, the transaction is rolled back and the table is unchanged (surfaced
as HTTP 500). -/
def commitDraft (db : DB) (essence_id : Int) (d : EssenceDraft) :
    Except HttpError (DB × Essence) :=
  match d.name, d.quantity, d.is_done with
  | some n, some q, some b =>
    let e : Essence := ⟨essence_id, n, q, b⟩
    Except.ok (⟨db.rows.map (fun x => if x.id == essence_id then e else x)⟩, e)
  | _, _, _ => Except.error HttpError.server

/-- `list_essences` (src/routers.py lines 52–97).  The `Query(...)`
declarations validate the parameters (min/max quantity `ge=0`, limit
`ge=1, le=100`, offset `ge=0`) before the handler runs; a violation is a
422.  The handler builds a conjunctive `WHERE`: a truthy `name` adds a
case-insensitive contains filter (an empty string, being falsy in Python,
adds none), `is_done`/`min_quantity`/`max_quantity` add their filters when
not `None`; then `LIMIT limit OFFSET offset` drops `offset` rows and takes
at most `limit`. -/
def list_essences (db : DB) (name : Option String) (is_done : Option Bool)
    (min_quantity : Option Int) (max_quantity : Option Int)
    (limit : Int := 10) (offset : Int := 0) :
    Except HttpError (List Essence) :=
  if (min_quantity.all (fun q => decide (0 ≤ q))) &&
     (max_quantity.all (fun q => decide (0 ≤ q))) &&
     decide (1 ≤ limit) && decide (limit ≤ 100) && decide (0 ≤ offset) then
    let r0 := db.rows
    let r1 := match name with
      | none => r0
      | some n => if n == "" then r0 else r0.filter (fun e => ilikeContains n e.name)
    let r2 := match is_done with
      | none => r1
      | some d => r1.filter (fun e => e.is_done == d)
    let r3 := match min_quantity with
      | none => r2
      | some q => r2.filter (fun e => q ≤ e.quantity)
    let r4 := match max_quantity with
      | none => r3
      | some q => r3.filter (fun e => e.quantity ≤ q)
    Except.ok ((r4.drop offset.toNat).take limit.toNat)
  else Except.error HttpError.validation

/-- `get_essence` (src/routers.py lines 105–112): primary-key lookup, 404
when absent. -/
def get_essence (db : DB) (essence_id : Int) : Except HttpError Essence :=
  match dbGet db essence_id with
  | none => Except.error HttpError.notFound
  | some e => Except.ok e

/-- `create_essence` (src/routers.py lines 140–148): the `EssenceCreate`
payload is bound from the query string and validated before the handler
runs (422 on failure); the handler inserts a row and commits, returning the
created row (refreshed, so with its assigned id). -/
def create_essence (db : DB) (params : List (String × String)) :
    Except HttpError (DB × Essence) :=
  match validateEssenceCreate (bindCreateQuery params) with
  | Except.error _ => Except.error HttpError.validation
  | Except.ok c => Except.ok (insertEssence db c)

/-- FastAPI's validation of a `List[EssenceCreate]` body: every item is
validated against the `EssenceCreate` schema; one failure fails the whole
body. -/
def validateCreateList (payloads : List JObj) : Except Unit (List EssenceCreate) :=
  match payloads with
  | [] => Except.ok []
  | p :: rest =>
    match validateEssenceCreate p, validateCreateList rest with
    | Except.ok c, Except.ok cs => Except.ok (c :: cs)
    | _, _ => Except.error ()

/-- `create_essences_bulk` (src/routers.py lines 122–131): FastAPI validates
the whole `List[EssenceCreate]` body before the handler runs — any invalid
item fails the entire request with 422 and the handler never executes; on
success all rows are added and committed at once, and returned in input
order. -/
def create_essences_bulk (db : DB) (payloads : List JObj) :
    Except HttpError (DB × List Essence) :=
  match validateCreateList payloads with
  | Except.error _ => Except.error HttpError.validation
  | Except.ok cs => Except.ok (insertEssences db cs)

/-- `put_essence` (src/routers.py lines 156–171): the `EssenceReplace` body
is validated first (422 on failure); then the row is fetched (404 when
absent); then every dumped field is `setattr`-ed onto it and the change is
committed. -/
def put_essence (db : DB) (essence_id : Int) (payload : JObj) :
    Except HttpError (DB × Essence) :=
  match validateEssenceReplace payload with
  | Except.error _ => Except.error HttpError.validation
  | Except.ok r =>
    match dbGet db essence_id with
    | none => Except.error HttpError.notFound
    | some e => commitDraft db essence_id ((replaceDump r).foldl setField (toDraft e))

/-- `patch_essence` (src/routers.py lines 180–195): the `EssenceUpdate` body
is validated first (422 on failure); then the row is fetched (404 when
absent); then only the explicitly-set dumped fields are `setattr`-ed onto it
(an explicit null is set as `None`) and the change is committed. -/
def patch_essence (db : DB) (essence_id : Int) (payload : JObj) :
    Except HttpError (DB × Essence) :=
  match validateEssenceUpdate payload with
  | Except.error _ => Except.error HttpError.validation
  | Except.ok u =>
    match dbGet db essence_id with
    | none => Except.error HttpError.notFound
    | some e => commitDraft db essence_id ((updateDump u).foldl setField (toDraft e))

/-- `delete_essence` (src/routers.py lines 203–215): the row is fetched (404
when absent), deleted and the deletion committed; the response is status 204
with an empty body (modelled as the status code paired with `none`). -/
def delete_essence (db : DB) (essence_id : Int) :
    Except HttpError (DB × Nat × Option JValue) :=
  match dbGet db essence_id with
  | none => Except.error HttpError.notFound
  | some _ =>
    Except.ok (⟨db.rows.filter (fun e => ! (e.id == essence_id))⟩,
               delete_success_status, none)

/-- The table after a request: its new state on success, the old state on
any error (validation and the 404 check precede every mutation, and a failed
commit rolls the transaction back). -/
def requestState {α : Type} (db : DB) (r : Except HttpError (DB × α)) : DB :=
  match r with
  | Except.ok (db', _) => db'
  | Except.error _ => db

/-- The states reachable from the empty table (created at startup by
`Base.metadata.create_all`) through the mutating public operations.  A
request that ends in an error leaves the table unchanged: validation and the
404 check happen before any mutation, and a failed commit rolls back. -/
inductive Reachable : DB → Prop
  | init : Reachable ⟨[]⟩
  | create {db db' : DB} {params : List (String × String)} {e : Essence} :
      Reachable db → create_essence db params = Except.ok (db', e) →
      Reachable db'
  | bulk {db db' : DB} {payloads : List JObj} {es : List Essence} :
      Reachable db → create_essences_bulk db payloads = Except.ok (db', es) →
      Reachable db'
  | put {db db' : DB} {i : Int} {payload : JObj} {e : Essence} :
      Reachable db → put_essence db i payload = Except.ok (db', e) →
      Reachable db'
  | patch {db db' : DB} {i : Int} {payload : JObj} {e : Essence} :
      Reachable db → patch_essence db i payload = Except.ok (db', e) →
      Reachable db'
  | delete {db db' : DB} {i : Int} {r : Nat × Option JValue} :
      Reachable db → delete_essence db i = Except.ok (db', r) →
      Reachable db'

/-- The conjunction of all supplied list filters, as one predicate: a truthy
`name` demands a case-insensitive contains match, `is_done` an exact match,
`min_quantity`/`max_quantity` inclusive bounds; an omitted filter (or an
empty `name`, falsy in Python) demands nothing. -/
def matchesFilters (name : Option String) (is_done : Option Bool)
    (min_quantity max_quantity : Option Int) (e : Essence) : Bool :=
  (match name with
   | none => true
   | some n => if n == "" then true else ilikeContains n e.name) &&
  (match is_done with
   | none => true
   | some d => e.is_done == d) &&
  (match min_quantity with
   | none => true
   | some q => decide (q ≤ e.quantity)) &&
  (match max_quantity with
   | none => true
   | some q => decide (e.quantity ≤ q))

/-! ## Helper lemmas -/

theorem validateEssenceBase_quantity_nonneg {o : JObj} {c : EssenceBase}
    (h : validateEssenceBase o = Except.ok c) : 0 ≤ c.quantity := by
  unfold validateEssenceBase at h
  split at h
  · split at h
    · rename_i n q hn hq
      split at h
      · rename_i hcond
        split at h
        · cases h
          exact hcond.2
        · cases h
          exact hcond.2
        · exact absurd h (by simp)
      · exact absurd h (by simp)
    · exact absurd h (by simp)
  · exact absurd h (by simp)

theorem validateOptQuantity_nonneg {v : Option JValue} {q : Int}
    (h : validateOptQuantity v = Except.ok (some (some q))) : 0 ≤ q := by
  unfold validateOptQuantity at h
  split at h
  · exact absurd h (by simp)
  · exact absurd h (by simp)
  · rename_i n
    split at h
    · rename_i hq
      cases h
      exact hq
    · exact absurd h (by simp)
  · exact absurd h (by simp)

theorem validateEssenceUpdate_quantity_nonneg {o : JObj} {u : EssenceUpdate}
    {q : Int} (h : validateEssenceUpdate o = Except.ok u)
    (hq : u.quantity = some (some q)) : 0 ≤ q := by
  unfold validateEssenceUpdate at h
  split at h
  · split at h
    · rename_i n' q' b' hn hq' hb
      cases h
      have hq2 : q' = some (some q) := hq
      exact validateOptQuantity_nonneg (hq2 ▸ hq')
    · exact absurd h (by simp)
  · exact absurd h (by simp)

theorem validateCreateList_quantity_nonneg {payloads : List JObj}
    {cs : List EssenceCreate}
    (h : validateCreateList payloads = Except.ok cs) :
    ∀ c ∈ cs, 0 ≤ c.quantity := by
  induction payloads generalizing cs with
  | nil =>
    unfold validateCreateList at h
    cases h
    intro c hc
    exact absurd hc (List.not_mem_nil c)
  | cons p rest ih =>
    unfold validateCreateList at h
    split at h
    · rename_i c0 cs0 hc0 hcs0
      cases h
      intro c hc
      rcases List.mem_cons.mp hc with h1 | h1
      · exact h1 ▸ validateEssenceBase_quantity_nonneg hc0
      · exact ih hcs0 c h1
    · exact absurd h (by simp)

theorem validateCreateList_error_of_mem {payloads : List JObj} {p : JObj}
    (hp : p ∈ payloads) (he : validateEssenceCreate p = Except.error ()) :
    validateCreateList payloads = Except.error () := by
  induction payloads with
  | nil => exact absurd hp (List.not_mem_nil p)
  | cons q rest ih =>
    rcases List.mem_cons.mp hp with h1 | h1
    · unfold validateCreateList
      rw [h1] at he
      rw [he]
    · unfold validateCreateList
      rw [ih h1]
      cases hq : validateEssenceCreate q <;> rfl

theorem mem_id_le_fold {e : Essence} {l : List Essence} (h : e ∈ l) :
    e.id ≤ (l.map Essence.id).foldr max 0 := by
  induction l with
  | nil => exact absurd h (List.not_mem_nil e)
  | cons a t ih =>
    rcases List.mem_cons.mp h with h1 | h1
    · simp [h1]
    · exact le_trans (ih h1) (by simp)

theorem not_id_eq_freshId {db : DB} {x : Essence} (h : x ∈ db.rows) :
    ¬ x.id = freshId db := by
  intro hx
  have h1 := mem_id_le_fold h
  rw [hx] at h1
  unfold freshId at h1
  omega

theorem find?_append_right {p : Essence → Bool} {l1 l2 : List Essence}
    (h : ∀ x ∈ l1, ¬ p x = true) :
    (l1 ++ l2).find? p = l2.find? p := by
  induction l1 with
  | nil => rfl
  | cons a t ih =>
    have ha : ¬ p a = true := h a (List.mem_cons_self a t)
    simp only [List.cons_append, List.find?_cons, Bool.not_eq_true] at ha ⊢
    rw [ha]
    exact ih (fun x hx => h x (List.mem_cons_of_mem a hx))

theorem dbGet_insert_fresh (db : DB) (c : EssenceCreate) :
    dbGet (insertEssence db c).1 (freshId db) = some (insertEssence db c).2 := by
  unfold dbGet insertEssence
  rw [find?_append_right]
  · simp
  · intro x hx
    simpa using not_id_eq_freshId hx

theorem dbGet_some {db : DB} {i : Int} {e : Essence}
    (h : dbGet db i = some e) : e ∈ db.rows ∧ e.id = i := by
  unfold dbGet at h
  refine ⟨List.mem_of_find?_eq_some h, ?_⟩
  have := List.find?_some h
  simpa using this

theorem create_essence_ok {db db' : DB} {params : List (String × String)}
    {e : Essence} (h : create_essence db params = Except.ok (db', e)) :
    ∃ c, validateEssenceCreate (bindCreateQuery params) = Except.ok c ∧
      e = ⟨freshId db, c.name, c.quantity, c.is_done⟩ ∧
      db'.rows = db.rows ++ [e] := by
  unfold create_essence at h
  split at h
  · exact absurd h (by simp)
  · rename_i c hc
    refine ⟨c, hc, ?_⟩
    unfold insertEssence at h
    cases h
    exact ⟨rfl, rfl⟩

theorem bulk_ok {db db' : DB} {payloads : List JObj} {es : List Essence}
    (h : create_essences_bulk db payloads = Except.ok (db', es)) :
    ∃ cs, validateCreateList payloads = Except.ok cs ∧
      (db', es) = insertEssences db cs := by
  unfold create_essences_bulk at h
  split at h
  · exact absurd h (by simp)
  · rename_i cs hcs
    exact ⟨cs, hcs, (Except.ok.inj h).symm⟩

theorem commitDraft_ok {db db' : DB} {i : Int} {d : EssenceDraft} {e' : Essence}
    (h : commitDraft db i d = Except.ok (db', e')) :
    ∃ n q b, d = ⟨some n, some q, some b⟩ ∧ e' = ⟨i, n, q, b⟩ ∧
      db'.rows = db.rows.map (fun x => if x.id == i then e' else x) := by
  rcases d with ⟨dn, dq, dbo⟩
  cases dn with
  | none => exact absurd h (by simp [commitDraft])
  | some n =>
    cases dq with
    | none => exact absurd h (by simp [commitDraft])
    | some q =>
      cases dbo with
      | none => exact absurd h (by simp [commitDraft])
      | some b =>
        simp only [commitDraft] at h
        cases h
        exact ⟨n, q, b, rfl, rfl, rfl⟩

theorem foldl_replaceDump (r : EssenceReplace) (e : Essence) :
    (replaceDump r).foldl setField (toDraft e) =
      ⟨some r.name, some r.quantity, some r.is_done⟩ := rfl

theorem foldl_updateDump (u : EssenceUpdate) (e : Essence) :
    (updateDump u).foldl setField (toDraft e) =
      ⟨u.name.getD (some e.name), u.quantity.getD (some e.quantity),
       u.is_done.getD (some e.is_done)⟩ := by
  rcases u with ⟨n, q, b⟩
  cases n <;> cases q <;> cases b <;> rfl

theorem put_essence_ok {db db' : DB} {i : Int} {payload : JObj} {e' : Essence}
    (h : put_essence db i payload = Except.ok (db', e')) :
    ∃ r e, validateEssenceReplace payload = Except.ok r ∧
      dbGet db i = some e ∧
      e' = ⟨i, r.name, r.quantity, r.is_done⟩ ∧
      db'.rows = db.rows.map (fun x => if x.id == i then e' else x) := by
  unfold put_essence at h
  split at h
  · exact absurd h (by simp)
  · rename_i r hr
    split at h
    · exact absurd h (by simp)
    · rename_i e he
      rw [foldl_replaceDump] at h
      obtain ⟨n, q, b, hd, he', hrows⟩ := commitDraft_ok h
      cases hd
      exact ⟨r, e, hr, he, he', hrows⟩

theorem patch_essence_ok {db db' : DB} {i : Int} {payload : JObj} {e' : Essence}
    (h : patch_essence db i payload = Except.ok (db', e')) :
    ∃ u e, validateEssenceUpdate payload = Except.ok u ∧
      dbGet db i = some e ∧
      e' = ⟨i, (u.name.getD (some e.name)).getD e.name,
            (u.quantity.getD (some e.quantity)).getD e.quantity,
            (u.is_done.getD (some e.is_done)).getD e.is_done⟩ ∧
      (u.quantity.getD (some e.quantity)).isSome ∧
      db'.rows = db.rows.map (fun x => if x.id == i then e' else x) := by
  unfold patch_essence at h
  split at h
  · exact absurd h (by simp)
  · rename_i u hu
    split at h
    · exact absurd h (by simp)
    · rename_i e he
      rw [foldl_updateDump] at h
      obtain ⟨n, q, b, hd, he', hrows⟩ := commitDraft_ok h
      have hn : u.name.getD (some e.name) = some n := congrArg EssenceDraft.name hd
      have hq : u.quantity.getD (some e.quantity) = some q :=
        congrArg EssenceDraft.quantity hd
      have hb : u.is_done.getD (some e.is_done) = some b :=
        congrArg EssenceDraft.is_done hd
      refine ⟨u, e, hu, he, ?_, ?_, hrows⟩
      · rw [hn, hq, hb, he']
        rfl
      · rw [hq]
        rfl

theorem delete_essence_ok {db db' : DB} {i : Int} {r : Nat × Option JValue}
    (h : delete_essence db i = Except.ok (db', r)) :
    db'.rows = db.rows.filter (fun e => ! (e.id == i)) := by
  unfold delete_essence at h
  split at h
  · exact absurd h (by simp)
  · cases h
    rfl

theorem insertEssences_rows (db : DB) (cs : List EssenceCreate) :
    (insertEssences db cs).1.rows = db.rows ++ (insertEssences db cs).2 := by
  induction cs generalizing db with
  | nil => simp [insertEssences]
  | cons c rest ih =>
    simp only [insertEssences, insertEssence]
    rw [ih]
    simp

theorem insertEssences_length (db : DB) (cs : List EssenceCreate) :
    (insertEssences db cs).2.length = cs.length := by
  induction cs generalizing db with
  | nil => rfl
  | cons c rest ih =>
    simp only [insertEssences, insertEssence, List.length_cons]
    rw [ih]

theorem insertEssences_fields (db : DB) (cs : List EssenceCreate) :
    (insertEssences db cs).2.map (fun e => (e.name, e.quantity, e.is_done)) =
      cs.map (fun c => (c.name, c.quantity, c.is_done)) := by
  induction cs generalizing db with
  | nil => rfl
  | cons c rest ih =>
    simp only [insertEssences, insertEssence, List.map_cons]
    rw [ih]

theorem insertEssences_quantity_nonneg (db : DB) (cs : List EssenceCreate)
    (hdb : ∀ e ∈ db.rows, 0 ≤ e.quantity) (hcs : ∀ c ∈ cs, 0 ≤ c.quantity) :
    ∀ e ∈ (insertEssences db cs).1.rows, 0 ≤ e.quantity := by
  induction cs generalizing db with
  | nil => exact hdb
  | cons c rest ih =>
    simp only [insertEssences, insertEssence]
    refine ih _ ?_ (fun c' hc' => hcs c' (List.mem_cons_of_mem c hc'))
    intro e he
    rcases List.mem_append.mp he with h1 | h1
    · exact hdb e h1
    · rcases List.mem_singleton.mp h1 with rfl
      exact hcs c (List.mem_cons_self c rest)

theorem nodup_id_unique {db : DB} {x e : Essence}
    (hnd : (db.rows.map Essence.id).Nodup)
    (hx : x ∈ db.rows) (he : e ∈ db.rows) (hid : x.id = e.id) : x = e :=
  List.inj_on_of_nodup_map hnd hx he hid

theorem filter_and (p q : Essence → Bool) (l : List Essence) :
    (l.filter p).filter q = l.filter (fun e => p e && q e) := by
  induction l with
  | nil => rfl
  | cons a t ih =>
    cases hp : p a <;> cases hq : q a <;>
      simp [List.filter_cons, hp, hq, ih]


theorem list_essences_eq_filter (db : DB) (name : Option String)
    (d : Option Bool) (lo hi : Option Int) (limit offset : Int)
    (hlo : ∀ q, lo = some q → 0 ≤ q) (hhi : ∀ q, hi = some q → 0 ≤ q)
    (hl1 : 1 ≤ limit) (hl2 : limit ≤ 100) (ho : 0 ≤ offset) :
    list_essences db name d lo hi limit offset =
      Except.ok (((db.rows.filter
        (fun e => matchesFilters name d lo hi e)).drop
        offset.toNat).take limit.toNat) := by
  have hcond : ((lo.all fun q => decide (0 ≤ q)) &&
      (hi.all fun q => decide (0 ≤ q)) &&
      decide (1 ≤ limit) && decide (limit ≤ 100) && decide (0 ≤ offset)) = true := by
    have h1 : (lo.all fun q => decide (0 ≤ q)) = true := by
      cases lo with
      | none => rfl
      | some q => simp [hlo q rfl]
    have h2 : (hi.all fun q => decide (0 ≤ q)) = true := by
      cases hi with
      | none => rfl
      | some q => simp [hhi q rfl]
    simp [h1, h2, hl1, hl2, ho]
  unfold list_essences
  rw [if_pos hcond]
  cases name with
  | none =>
    cases d <;> cases lo <;> cases hi <;>
      simp [matchesFilters, filter_and, Bool.and_assoc, Bool.and_comm,
        Bool.and_left_comm]
  | some n =>
    cases hn : (n == "") <;> cases d <;> cases lo <;> cases hi <;>
      simp [matchesFilters, hn, filter_and, Bool.and_assoc, Bool.and_comm,
        Bool.and_left_comm]

theorem validateCreateList_length {payloads : List JObj}
    {cs : List EssenceCreate}
    (h : validateCreateList payloads = Except.ok cs) :
    cs.length = payloads.length := by
  induction payloads generalizing cs with
  | nil =>
    unfold validateCreateList at h
    cases h
    rfl
  | cons p rest ih =>
    unfold validateCreateList at h
    split at h
    · rename_i c0 cs0 hc0 hcs0
      cases h
      simp [ih hcs0]
    · exact absurd h (by simp)

/-! ## Claim theorems -/

/-- C1: for every valid Create payload (name of length at most 255,
quantity >= 0, optional is_done defaulting to false), the create operation
persists a new row, assigns it an id, and returns a record whose name,
quantity and is_done equal the input fields; a subsequent get-by-id with the
returned id returns an identical record. -/
theorem create_persists_and_roundtrips (db : DB)
    (params : List (String × String)) (c : EssenceCreate)
    (h : validateEssenceCreate (bindCreateQuery params) = Except.ok c) :
    ∃ db' e, create_essence db params = Except.ok (db', e) ∧
      e.id = freshId db ∧ e.name = c.name ∧ e.quantity = c.quantity ∧
      e.is_done = c.is_done ∧ db'.rows = db.rows ++ [e] ∧
      get_essence db' e.id = Except.ok e := by
  refine ⟨(insertEssence db c).1, (insertEssence db c).2, ?_,
    rfl, rfl, rfl, rfl, rfl, ?_⟩
  · unfold create_essence
    rw [h]
  · unfold get_essence
    have h2 : (insertEssence db c).2.id = freshId db := rfl
    rw [h2, dbGet_insert_fresh db c]

/-- C1 witness: a concrete valid payload, created on an empty table. -/
theorem create_persists_and_roundtrips_witness :
    validateEssenceCreate (bindCreateQuery [("name", "Apple"), ("quantity", "5")]) =
      Except.ok ⟨"Apple", 5, false⟩ ∧
    (∃ db' e, create_essence ⟨[]⟩ [("name", "Apple"), ("quantity", "5")] =
        Except.ok (db', e) ∧
      e.id = freshId ⟨[]⟩ ∧ e.name = "Apple" ∧ e.quantity = 5 ∧
      e.is_done = false ∧ db'.rows = DB.rows ⟨[]⟩ ++ [e] ∧
      get_essence db' e.id = Except.ok e) :=
  ⟨rfl, create_persists_and_roundtrips ⟨[]⟩ [("name", "Apple"), ("quantity", "5")]
    ⟨"Apple", 5, false⟩ rfl⟩

/-- C2 counterexample: the create payload is not received as the HTTP
request body (the handler declares it as a `Depends()` dependency, bound
from the query string), and a request carrying an unknown field `foo` is
accepted — not rejected with 422 as the claim states. -/
theorem create_body_claim_counterexample :
    create_essence_payload_location ≠ ParamLocation.body ∧
    create_essence ⟨[]⟩ [("name", "A"), ("quantity", "5"), ("foo", "bar")] =
      Except.ok (⟨[⟨1, "A", 5, false⟩]⟩, ⟨1, "A", 5, false⟩) :=
  ⟨by decide, rfl⟩

/-- C2 amended: the create operation receives its Create payload as query
parameters of POST / (the handler declares the schema via `Depends()`),
answers 201 with the created record on success, and answers 422 when the
parameters are invalid (missing required field, wrong type, out-of-range
value); unknown query parameters are ignored rather than rejected. -/
theorem create_query_binding_statuses (db : DB) :
    create_essence_payload_location = ParamLocation.query ∧
    create_success_status = 201 ∧
    HttpError.validation.statusCode = 422 ∧
    create_essence ⟨[]⟩ [("name", "Apple"), ("quantity", "5")] =
      Except.ok (⟨[⟨1, "Apple", 5, false⟩]⟩, ⟨1, "Apple", 5, false⟩) ∧
    create_essence db [("quantity", "5")] = Except.error HttpError.validation ∧
    create_essence db [("name", "A"), ("quantity", "abc")] =
      Except.error HttpError.validation ∧
    create_essence db [("name", "A"), ("quantity", "-1")] =
      Except.error HttpError.validation ∧
    create_essence db [("name", "A"), ("quantity", "5"), ("foo", "bar")] =
      Except.ok (insertEssence db ⟨"A", 5, false⟩) :=
  ⟨rfl, rfl, rfl, rfl, rfl, rfl, rfl, rfl⟩

/-- C5 counterexample: a Replace payload without `is_done` is not rejected —
`is_done` is not required on PUT (it inherits the default `False` from
`EssenceBase`), contradicting "name, quantity, is_done all required"; the
full replace then resets the stored `is_done` from `true` to the default
`false`. -/
theorem put_is_done_not_required :
    validateEssenceReplace [("name", JValue.jstr "New"), ("quantity", JValue.jint 7)] =
      Except.ok ⟨"New", 7, false⟩ ∧
    put_essence ⟨[⟨1, "Old", 2, true⟩]⟩ 1
        [("name", JValue.jstr "New"), ("quantity", JValue.jint 7)] =
      Except.ok (⟨[⟨1, "New", 7, false⟩]⟩, ⟨1, "New", 7, false⟩) :=
  ⟨rfl, rfl⟩

/-- C5 amended: for every existing row and every valid Replace payload
(name and quantity required; is_done optional, defaulting to false),
full-replace overwrites all three mutable fields with the supplied (or
defaulted) values — including fields whose new value equals the old one —
returns the updated record, and leaves the row's id unchanged. -/
theorem put_overwrites_every_field (db : DB) (i : Int) (payload : JObj)
    (r : EssenceReplace) (e : Essence)
    (hr : validateEssenceReplace payload = Except.ok r)
    (he : dbGet db i = some e) :
    put_essence db i payload =
      Except.ok
        (⟨db.rows.map (fun x =>
            if x.id == i then ⟨i, r.name, r.quantity, r.is_done⟩ else x)⟩,
         ⟨i, r.name, r.quantity, r.is_done⟩) ∧
    e.id = i := by
  refine ⟨?_, (dbGet_some he).2⟩
  unfold put_essence
  rw [hr, he]
  rfl

/-- C5 amended witness: replacing a concrete row, supplying a new value for
every field. -/
theorem put_overwrites_every_field_witness :
    validateEssenceReplace
        [("name", JValue.jstr "New"), ("quantity", JValue.jint 7),
         ("is_done", JValue.jbool false)] =
      Except.ok ⟨"New", 7, false⟩ ∧
    dbGet ⟨[⟨1, "Old", 2, true⟩]⟩ 1 = some ⟨1, "Old", 2, true⟩ ∧
    (put_essence ⟨[⟨1, "Old", 2, true⟩]⟩ 1
        [("name", JValue.jstr "New"), ("quantity", JValue.jint 7),
         ("is_done", JValue.jbool false)] =
      Except.ok
        (⟨(DB.rows ⟨[⟨1, "Old", 2, true⟩]⟩).map (fun x =>
            if x.id == 1 then ⟨1, "New", 7, false⟩ else x)⟩,
         ⟨1, "New", 7, false⟩) ∧
     Essence.id ⟨1, "Old", 2, true⟩ = 1) :=
  ⟨rfl, rfl, put_overwrites_every_field ⟨[⟨1, "Old", 2, true⟩]⟩ 1 _
    ⟨"New", 7, false⟩ ⟨1, "Old", 2, true⟩ rfl rfl⟩

/-- C7: for every id with no stored row (never created or already deleted),
get-by-id, full-replace (with a valid body), partial-update (with a valid
body) and delete each return the 404 not-found error.  In the model an
error outcome carries no new state: the handlers raise before any mutation,
so the stored state is unchanged. -/
theorem absent_id_not_found (db : DB) (i : Int)
    (h : dbGet db i = none) (putPayload patchPayload : JObj)
    (r : EssenceReplace) (u : EssenceUpdate)
    (hr : validateEssenceReplace putPayload = Except.ok r)
    (hu : validateEssenceUpdate patchPayload = Except.ok u) :
    get_essence db i = Except.error HttpError.notFound ∧
    put_essence db i putPayload = Except.error HttpError.notFound ∧
    patch_essence db i patchPayload = Except.error HttpError.notFound ∧
    delete_essence db i = Except.error HttpError.notFound ∧
    HttpError.notFound.statusCode = 404 := by
  refine ⟨?_, ?_, ?_, ?_, rfl⟩
  · unfold get_essence
    rw [h]
  · unfold put_essence
    rw [hr, h]
  · unfold patch_essence
    rw [hu, h]
  · unfold delete_essence
    rw [h]

/-- C7 witness: id 1 on the empty table, with concrete valid bodies. -/
theorem absent_id_not_found_witness :
    dbGet ⟨[]⟩ 1 = none ∧
    validateEssenceReplace
        [("name", JValue.jstr "A"), ("quantity", JValue.jint 1)] =
      Except.ok ⟨"A", 1, false⟩ ∧
    validateEssenceUpdate [] = Except.ok ⟨none, none, none⟩ ∧
    (get_essence ⟨[]⟩ 1 = Except.error HttpError.notFound ∧
     put_essence ⟨[]⟩ 1 [("name", JValue.jstr "A"), ("quantity", JValue.jint 1)] =
       Except.error HttpError.notFound ∧
     patch_essence ⟨[]⟩ 1 [] = Except.error HttpError.notFound ∧
     delete_essence ⟨[]⟩ 1 = Except.error HttpError.notFound ∧
     HttpError.notFound.statusCode = 404) :=
  ⟨rfl, rfl, rfl,
   absent_id_not_found ⟨[]⟩ 1 rfl _ [] ⟨"A", 1, false⟩ ⟨none, none, none⟩ rfl rfl⟩

/-- C8: deleting an existing id removes the row and returns status 204 with
an empty body; afterwards the row is absent (get-by-id is 404) and an
immediate second delete returns 404 — idempotent in effect, not in
response. -/
theorem delete_then_delete_again (db : DB) (i : Int) (e : Essence)
    (h : dbGet db i = some e) :
    ∃ db', delete_essence db i = Except.ok (db', delete_success_status, none) ∧
      delete_success_status = 204 ∧
      db'.rows = db.rows.filter (fun x => ! (x.id == i)) ∧
      dbGet db' i = none ∧
      get_essence db' i = Except.error HttpError.notFound ∧
      delete_essence db' i = Except.error HttpError.notFound := by
  have hnone : dbGet (⟨db.rows.filter (fun x => ! (x.id == i))⟩ : DB) i = none := by
    unfold dbGet
    apply List.find?_eq_none.mpr
    intro x hx
    have h2 := (List.mem_filter.mp hx).2
    simpa using h2
  refine ⟨⟨db.rows.filter (fun x => ! (x.id == i))⟩, ?_, rfl, rfl, hnone, ?_, ?_⟩
  · unfold delete_essence
    rw [h]
  · unfold get_essence
    rw [hnone]
  · unfold delete_essence
    rw [hnone]

/-- C8 witness: a one-row table. -/
theorem delete_then_delete_again_witness :
    dbGet ⟨[⟨1, "Old", 2, true⟩]⟩ 1 = some ⟨1, "Old", 2, true⟩ ∧
    (∃ db', delete_essence ⟨[⟨1, "Old", 2, true⟩]⟩ 1 =
        Except.ok (db', delete_success_status, none) ∧
      delete_success_status = 204 ∧
      db'.rows = (DB.rows ⟨[⟨1, "Old", 2, true⟩]⟩).filter (fun x => ! (x.id == 1)) ∧
      dbGet db' 1 = none ∧
      get_essence db' 1 = Except.error HttpError.notFound ∧
      delete_essence db' 1 = Except.error HttpError.notFound) :=
  ⟨rfl, delete_then_delete_again ⟨[⟨1, "Old", 2, true⟩]⟩ 1 ⟨1, "Old", 2, true⟩ rfl⟩

/-- C10: in partial-update, a field explicitly present with value null is
treated as supplied: it passes validation (`Optional` fields accept null),
survives `model_dump(exclude_unset=True)`, and is assigned as `None` onto
the ORM row — not left unchanged like an absent field.  All three columns
are non-nullable in storage, so the request reaches persistence (the
commit, which fails with an integrity error surfaced as 500) instead of
being rejected as a 422 validation error. -/
theorem patch_null_reaches_persistence (db : DB) (i : Int) (e : Essence)
    (he : dbGet db i = some e) :
    validateEssenceUpdate [("name", JValue.jnull)] =
      Except.ok ⟨some none, none, none⟩ ∧
    (updateDump ⟨some none, none, none⟩).foldl setField (toDraft e) =
      ⟨none, some e.quantity, some e.is_done⟩ ∧
    storageRowAccepted ⟨none, some e.quantity, some e.is_done⟩ = false ∧
    patch_essence db i [("name", JValue.jnull)] = Except.error HttpError.server ∧
    patch_essence db i [("name", JValue.jnull)] ≠ Except.error HttpError.validation ∧
    HttpError.server.statusCode = 500 := by
  have hp : patch_essence db i [("name", JValue.jnull)] = Except.error HttpError.server := by
    unfold patch_essence
    rw [he]
    rfl
  have hne : patch_essence db i [("name", JValue.jnull)] ≠
      Except.error HttpError.validation := by
    rw [hp]
    simp
  exact ⟨rfl, rfl, rfl, hp, hne, rfl⟩

/-- C10 witness: a one-row table. -/
theorem patch_null_reaches_persistence_witness :
    dbGet ⟨[⟨1, "Old", 2, true⟩]⟩ 1 = some ⟨1, "Old", 2, true⟩ ∧
    (validateEssenceUpdate [("name", JValue.jnull)] =
      Except.ok ⟨some none, none, none⟩ ∧
    (updateDump ⟨some none, none, none⟩).foldl setField
        (toDraft ⟨1, "Old", 2, true⟩) = ⟨none, some 2, some true⟩ ∧
    storageRowAccepted ⟨none, some 2, some true⟩ = false ∧
    patch_essence ⟨[⟨1, "Old", 2, true⟩]⟩ 1 [("name", JValue.jnull)] =
      Except.error HttpError.server ∧
    patch_essence ⟨[⟨1, "Old", 2, true⟩]⟩ 1 [("name", JValue.jnull)] ≠
      Except.error HttpError.validation ∧
    HttpError.server.statusCode = 500) :=
  ⟨rfl, patch_null_reaches_persistence ⟨[⟨1, "Old", 2, true⟩]⟩ 1
    ⟨1, "Old", 2, true⟩ rfl⟩

/-- C6: partial-update applies only the fields explicitly present in the
Update payload (assigning their supplied values) and leaves every absent
field's stored value untouched; with an empty payload the whole row —
name, quantity, is_done and id — is unchanged (the table itself is
unchanged). -/
theorem patch_only_present_fields (db : DB) (i : Int)
    (payload : JObj) (u : EssenceUpdate) (e : Essence)
    (hnd : (db.rows.map Essence.id).Nodup)
    (hu : validateEssenceUpdate payload = Except.ok u)
    (he : dbGet db i = some e) :
    (∀ db' e', patch_essence db i payload = Except.ok (db', e') →
      e'.id = e.id ∧
      (u.name = none → e'.name = e.name) ∧
      (u.quantity = none → e'.quantity = e.quantity) ∧
      (u.is_done = none → e'.is_done = e.is_done) ∧
      (∀ v, u.name = some (some v) → e'.name = v) ∧
      (∀ v, u.quantity = some (some v) → e'.quantity = v) ∧
      (∀ v, u.is_done = some (some v) → e'.is_done = v)) ∧
    (payload = [] → patch_essence db i payload = Except.ok (db, e)) := by
  obtain ⟨hme, hei⟩ := dbGet_some he
  constructor
  · intro db' e' hp
    obtain ⟨u2, e2, hu2, he2, hf, hq, hrows⟩ := patch_essence_ok hp
    rw [hu] at hu2
    rw [he] at he2
    obtain rfl : u = u2 := Except.ok.inj hu2
    obtain rfl : e = e2 := Option.some.inj he2
    subst hf
    refine ⟨by simp [hei], ?_, ?_, ?_, ?_, ?_, ?_⟩
    · intro hn
      simp [hn]
    · intro hq2
      simp [hq2]
    · intro hb
      simp [hb]
    · intro v hn
      simp [hn]
    · intro v hq2
      simp [hq2]
    · intro v hb
      simp [hb]
  · intro hpl
    subst hpl
    have hres : patch_essence db i [] =
        Except.ok (⟨db.rows.map (fun x =>
            if x.id == i then (⟨i, e.name, e.quantity, e.is_done⟩ : Essence)
            else x)⟩,
          ⟨i, e.name, e.quantity, e.is_done⟩) := by
      unfold patch_essence
      rw [he]
      rfl
    have hee : (⟨i, e.name, e.quantity, e.is_done⟩ : Essence) = e := by
      rw [← hei]
    have hmap : db.rows.map (fun x =>
        if x.id == i then (⟨i, e.name, e.quantity, e.is_done⟩ : Essence)
        else x) = db.rows := by
      have h2 : db.rows.map (fun x =>
          if x.id == i then (⟨i, e.name, e.quantity, e.is_done⟩ : Essence)
          else x) = db.rows.map id := by
        apply List.map_congr_left
        intro x hx
        by_cases hxi : (x.id == i) = true
        · rw [if_pos hxi]
          have : x = e := nodup_id_unique hnd hx hme (by
            rw [hei]
            exact eq_of_beq hxi)
          rw [hee, this]
          rfl
        · rw [if_neg hxi]
          rfl
      rw [h2, List.map_id]
    rw [hres, hmap, hee]

/-- C6 witness: patching a one-row table with a payload supplying only
quantity. -/
theorem patch_only_present_fields_witness :
    ((DB.rows ⟨[⟨1, "Old", 2, true⟩]⟩).map Essence.id).Nodup ∧
    validateEssenceUpdate [("quantity", JValue.jint 9)] =
      Except.ok ⟨none, some (some 9), none⟩ ∧
    dbGet ⟨[⟨1, "Old", 2, true⟩]⟩ 1 = some ⟨1, "Old", 2, true⟩ ∧
    ((∀ db' e', patch_essence ⟨[⟨1, "Old", 2, true⟩]⟩ 1
          [("quantity", JValue.jint 9)] = Except.ok (db', e') →
        e'.id = Essence.id ⟨1, "Old", 2, true⟩ ∧
        ((none : Option (Option String)) = none →
          e'.name = Essence.name ⟨1, "Old", 2, true⟩) ∧
        ((some (some 9) : Option (Option Int)) = none →
          e'.quantity = Essence.quantity ⟨1, "Old", 2, true⟩) ∧
        ((none : Option (Option Bool)) = none →
          e'.is_done = Essence.is_done ⟨1, "Old", 2, true⟩) ∧
        (∀ v, (none : Option (Option String)) = some (some v) → e'.name = v) ∧
        (∀ v, (some (some 9) : Option (Option Int)) = some (some v) →
          e'.quantity = v) ∧
        (∀ v, (none : Option (Option Bool)) = some (some v) → e'.is_done = v)) ∧
     ([("quantity", JValue.jint 9)] = ([] : JObj) →
       patch_essence ⟨[⟨1, "Old", 2, true⟩]⟩ 1 [("quantity", JValue.jint 9)] =
         Except.ok (⟨[⟨1, "Old", 2, true⟩]⟩, ⟨1, "Old", 2, true⟩))) :=
  ⟨by simp, rfl, rfl,
   patch_only_present_fields ⟨[⟨1, "Old", 2, true⟩]⟩ 1
     [("quantity", JValue.jint 9)] ⟨none, some (some 9), none⟩
     ⟨1, "Old", 2, true⟩ (by simp) rfl rfl⟩

/-- C3: bulk-create of an ordered sequence of valid payloads persists all of
them in one commit (appended to the table) and returns records in input
order with the input field values; if any one payload is invalid, the whole
request is rejected with 422 before the handler runs and the stored state —
in particular the row count — is unchanged. -/
theorem bulk_create_order_and_atomicity (db : DB) (payloads : List JObj) :
    (∀ cs, validateCreateList payloads = Except.ok cs →
      ∃ db' es, create_essences_bulk db payloads = Except.ok (db', es) ∧
        db'.rows = db.rows ++ es ∧
        es.length = payloads.length ∧
        es.map (fun e => (e.name, e.quantity, e.is_done)) =
          cs.map (fun c => (c.name, c.quantity, c.is_done))) ∧
    (∀ p ∈ payloads, validateEssenceCreate p = Except.error () →
      create_essences_bulk db payloads = Except.error HttpError.validation ∧
      requestState db (create_essences_bulk db payloads) = db ∧
      (requestState db (create_essences_bulk db payloads)).rows.length =
        db.rows.length) := by
  constructor
  · intro cs hcs
    refine ⟨(insertEssences db cs).1, (insertEssences db cs).2, ?_,
      insertEssences_rows db cs, ?_, insertEssences_fields db cs⟩
    · unfold create_essences_bulk
      rw [hcs]
    · rw [insertEssences_length db cs, validateCreateList_length hcs]
  · intro p hp hep
    have herr := validateCreateList_error_of_mem hp hep
    have hbe : create_essences_bulk db payloads =
        Except.error HttpError.validation := by
      unfold create_essences_bulk
      rw [herr]
    refine ⟨hbe, ?_, ?_⟩
    · rw [hbe]
      rfl
    · rw [hbe]
      rfl

/-- C3 witness: a valid two-payload bulk request on the empty table, and a
bulk request whose second payload has a negative quantity against a one-row
table. -/
theorem bulk_create_order_and_atomicity_witness :
    validateCreateList
        [[("name", JValue.jstr "Apple"), ("quantity", JValue.jint 5)],
         [("name", JValue.jstr "Banana"), ("quantity", JValue.jint 10)]] =
      Except.ok [⟨"Apple", 5, false⟩, ⟨"Banana", 10, false⟩] ∧
    (∃ db' es, create_essences_bulk ⟨[]⟩
        [[("name", JValue.jstr "Apple"), ("quantity", JValue.jint 5)],
         [("name", JValue.jstr "Banana"), ("quantity", JValue.jint 10)]] =
        Except.ok (db', es) ∧
      db'.rows = DB.rows ⟨[]⟩ ++ es ∧
      es.length = 2 ∧
      es.map (fun e => (e.name, e.quantity, e.is_done)) =
        [⟨"Apple", 5, false⟩, ⟨"Banana", 10, false⟩].map
          (fun c => (EssenceBase.name c, EssenceBase.quantity c,
            EssenceBase.is_done c))) ∧
    [("name", JValue.jstr "Bad"), ("quantity", JValue.jint (-1))] ∈
      [[("name", JValue.jstr "Good"), ("quantity", JValue.jint 1)],
       [("name", JValue.jstr "Bad"), ("quantity", JValue.jint (-1))]] ∧
    validateEssenceCreate
        [("name", JValue.jstr "Bad"), ("quantity", JValue.jint (-1))] =
      Except.error () ∧
    (create_essences_bulk ⟨[⟨1, "Old", 2, true⟩]⟩
        [[("name", JValue.jstr "Good"), ("quantity", JValue.jint 1)],
         [("name", JValue.jstr "Bad"), ("quantity", JValue.jint (-1))]] =
        Except.error HttpError.validation ∧
      requestState ⟨[⟨1, "Old", 2, true⟩]⟩
        (create_essences_bulk ⟨[⟨1, "Old", 2, true⟩]⟩
          [[("name", JValue.jstr "Good"), ("quantity", JValue.jint 1)],
           [("name", JValue.jstr "Bad"), ("quantity", JValue.jint (-1))]]) =
        ⟨[⟨1, "Old", 2, true⟩]⟩ ∧
      (requestState ⟨[⟨1, "Old", 2, true⟩]⟩
        (create_essences_bulk ⟨[⟨1, "Old", 2, true⟩]⟩
          [[("name", JValue.jstr "Good"), ("quantity", JValue.jint 1)],
           [("name", JValue.jstr "Bad"), ("quantity", JValue.jint (-1))]])).rows.length =
        (DB.rows ⟨[⟨1, "Old", 2, true⟩]⟩).length) :=
  ⟨rfl,
   (bulk_create_order_and_atomicity ⟨[]⟩
     [[("name", JValue.jstr "Apple"), ("quantity", JValue.jint 5)],
      [("name", JValue.jstr "Banana"), ("quantity", JValue.jint 10)]]).1
     [⟨"Apple", 5, false⟩, ⟨"Banana", 10, false⟩] rfl,
   by simp,
   rfl,
   (bulk_create_order_and_atomicity ⟨[⟨1, "Old", 2, true⟩]⟩
     [[("name", JValue.jstr "Good"), ("quantity", JValue.jint 1)],
      [("name", JValue.jstr "Bad"), ("quantity", JValue.jint (-1))]]).2
     [("name", JValue.jstr "Bad"), ("quantity", JValue.jint (-1))]
     (by simp) (by rfl)⟩

/-- C4: the list operation applies every supplied filter conjunctively
(name as case-insensitive substring, is_done exactly, min/max quantity as
inclusive bounds), then applies offset then limit, returning the resulting
page; concretely, after creating ("Apple",5,false), ("Apricot",3,true),
("Banana",10,false), listing with name="ap" returns exactly the first two,
in creation order. -/
theorem list_conjunctive_filters_page (db : DB) (name : Option String)
    (d : Option Bool) (lo hi : Option Int) (limit offset : Int)
    (hlo : ∀ q, lo = some q → 0 ≤ q) (hhi : ∀ q, hi = some q → 0 ≤ q)
    (hl1 : 1 ≤ limit) (hl2 : limit ≤ 100) (ho : 0 ≤ offset) :
    list_essences db name d lo hi limit offset =
      Except.ok (((db.rows.filter
        (fun e => matchesFilters name d lo hi e)).drop offset.toNat).take
        limit.toNat) ∧
    create_essences_bulk ⟨[]⟩
        [[("name", JValue.jstr "Apple"), ("quantity", JValue.jint 5)],
         [("name", JValue.jstr "Apricot"), ("quantity", JValue.jint 3),
          ("is_done", JValue.jbool true)],
         [("name", JValue.jstr "Banana"), ("quantity", JValue.jint 10)]] =
      Except.ok (⟨[⟨1, "Apple", 5, false⟩, ⟨2, "Apricot", 3, true⟩,
                   ⟨3, "Banana", 10, false⟩]⟩,
        [⟨1, "Apple", 5, false⟩, ⟨2, "Apricot", 3, true⟩,
         ⟨3, "Banana", 10, false⟩]) ∧
    list_essences ⟨[⟨1, "Apple", 5, false⟩, ⟨2, "Apricot", 3, true⟩,
                    ⟨3, "Banana", 10, false⟩]⟩ (some "ap") none none none 10 0 =
      Except.ok [⟨1, "Apple", 5, false⟩, ⟨2, "Apricot", 3, true⟩] :=
  ⟨list_essences_eq_filter db name d lo hi limit offset hlo hhi hl1 hl2 ho,
   rfl, rfl⟩

/-- C4 witness: the general part instantiated with every filter supplied. -/
theorem list_conjunctive_filters_page_witness :
    (∀ q, (some 4 : Option Int) = some q → 0 ≤ q) ∧
    (∀ q, (some 10 : Option Int) = some q → 0 ≤ q) ∧
    (1 : Int) ≤ 10 ∧ (10 : Int) ≤ 100 ∧ (0 : Int) ≤ 0 ∧
    (list_essences ⟨[⟨1, "Apple", 5, false⟩, ⟨2, "Apricot", 3, true⟩,
        ⟨3, "Banana", 10, false⟩]⟩ (some "a") (some false) (some 4) (some 10)
        10 0 =
      Except.ok ((((DB.rows ⟨[⟨1, "Apple", 5, false⟩, ⟨2, "Apricot", 3, true⟩,
          ⟨3, "Banana", 10, false⟩]⟩).filter
        (fun e => matchesFilters (some "a") (some false) (some 4) (some 10) e)).drop
        (Int.toNat 0)).take (Int.toNat 10)) ∧
     create_essences_bulk ⟨[]⟩
        [[("name", JValue.jstr "Apple"), ("quantity", JValue.jint 5)],
         [("name", JValue.jstr "Apricot"), ("quantity", JValue.jint 3),
          ("is_done", JValue.jbool true)],
         [("name", JValue.jstr "Banana"), ("quantity", JValue.jint 10)]] =
      Except.ok (⟨[⟨1, "Apple", 5, false⟩, ⟨2, "Apricot", 3, true⟩,
                   ⟨3, "Banana", 10, false⟩]⟩,
        [⟨1, "Apple", 5, false⟩, ⟨2, "Apricot", 3, true⟩,
         ⟨3, "Banana", 10, false⟩]) ∧
     list_essences ⟨[⟨1, "Apple", 5, false⟩, ⟨2, "Apricot", 3, true⟩,
                    ⟨3, "Banana", 10, false⟩]⟩ (some "ap") none none none 10 0 =
      Except.ok [⟨1, "Apple", 5, false⟩, ⟨2, "Apricot", 3, true⟩]) :=
  ⟨fun q hq => by cases hq; decide, fun q hq => by cases hq; decide,
   by decide, by decide, by decide,
   list_conjunctive_filters_page
     ⟨[⟨1, "Apple", 5, false⟩, ⟨2, "Apricot", 3, true⟩,
       ⟨3, "Banana", 10, false⟩]⟩ (some "a") (some false) (some 4) (some 10)
     10 0 (fun q hq => by cases hq; decide) (fun q hq => by cases hq; decide)
     (by decide) (by decide) (by decide)⟩

/-- C9: in every state reachable through the public mutating operations,
no stored row has a negative quantity; and the storage layer itself imposes
no such constraint — a draft row with a negative quantity satisfies every
storage-level (NOT NULL) constraint — so the guarantee comes from the
validation schemas alone. -/
theorem reachable_quantity_never_negative :
    (∀ db, Reachable db → ∀ e ∈ db.rows, 0 ≤ e.quantity) ∧
    storageRowAccepted ⟨some "x", some (-5), some false⟩ = true := by
  constructor
  · intro db h
    induction h with
    | init =>
      intro e he
      exact absurd he (List.not_mem_nil e)
    | create hr hc ih =>
      obtain ⟨c, hval, he0, hrows⟩ := create_essence_ok hc
      intro x hx
      rw [hrows] at hx
      rcases List.mem_append.mp hx with h1 | h1
      · exact ih x h1
      · rcases List.mem_singleton.mp h1 with rfl
        rw [he0]
        exact validateEssenceBase_quantity_nonneg hval
    | bulk hr hb ih =>
      rename_i db0 db1 payloads0 es0
      obtain ⟨cs, hval, heq⟩ := bulk_ok hb
      have h1 : db1 = (insertEssences db0 cs).1 := by rw [← heq]
      intro x hx
      rw [h1] at hx
      exact insertEssences_quantity_nonneg db0 cs ih
        (validateCreateList_quantity_nonneg hval) x hx
    | put hr hp ih =>
      rename_i db0 db1 i0 payload0 e0
      obtain ⟨r, e, hval, hget, he', hrows⟩ := put_essence_ok hp
      intro x hx
      rw [hrows] at hx
      obtain ⟨y, hy, hxy⟩ := List.mem_map.mp hx
      by_cases hyi : (y.id == i0) = true
      · rw [if_pos hyi] at hxy
        rw [← hxy, he']
        exact validateEssenceBase_quantity_nonneg hval
      · rw [if_neg hyi] at hxy
        rw [← hxy]
        exact ih y hy
    | patch hr hp ih =>
      rename_i db0 db1 i0 payload0 e0
      obtain ⟨u, e, hval, hget, he', hqs, hrows⟩ := patch_essence_ok hp
      intro x hx
      rw [hrows] at hx
      obtain ⟨y, hy, hxy⟩ := List.mem_map.mp hx
      by_cases hyi : (y.id == i0) = true
      · rw [if_pos hyi] at hxy
        rw [← hxy, he']
        cases hq : u.quantity with
        | none =>
          simp [hq]
          exact ih e (dbGet_some hget).1
        | some v =>
          cases v with
          | none =>
            rw [hq] at hqs
            simp at hqs
          | some q =>
            simp [hq]
            exact validateEssenceUpdate_quantity_nonneg hval hq
      · rw [if_neg hyi] at hxy
        rw [← hxy]
        exact ih y hy
    | delete hr hd ih =>
      have hrows := delete_essence_ok hd
      intro x hx
      rw [hrows] at hx
      exact ih x (List.mem_of_mem_filter hx)
  · rfl

/-- C9 witness: the invariant evaluated on a reachable one-row table. -/
theorem reachable_quantity_never_negative_witness :
    0 ≤ Essence.quantity ⟨1, "Apple", 5, false⟩ ∧
    storageRowAccepted ⟨some "x", some (-5), some false⟩ = true :=
  have hcr : create_essence ⟨[]⟩ [("name", "Apple"), ("quantity", "5")] =
      Except.ok (⟨[⟨1, "Apple", 5, false⟩]⟩, ⟨1, "Apple", 5, false⟩) := rfl
  ⟨reachable_quantity_never_negative.1 ⟨[⟨1, "Apple", 5, false⟩]⟩
      (Reachable.create Reachable.init hcr) ⟨1, "Apple", 5, false⟩ (by simp),
   reachable_quantity_never_negative.2⟩

end EssencesApi

